import Mathlib

/-!
Verification of the taskman backend against its specification.

The definitions below are a shallow embedding of the controller and socket
logic of the repository: MongoDB documents become Lean structures, the
document store becomes an in-memory list of documents, ObjectIds and dates
become natural numbers (ObjectId comparison becomes Nat comparison, which
models the total order MongoDB puts on ids), and each Express handler
becomes a pure function from the database and the request data to an
ApiResult that mirrors the HTTP status taxonomy (404 notFound,
401 unauthorized, 400 badRequest, 2xx ok).  Regular-expression matching
with the i flag, as used by the search endpoints on metacharacter-free
query strings, is modelled as case-insensitive substring containment.
-/

namespace Taskman

/-- An embedded comment document, as stored inside a task. -/
structure Comment where
  user : Nat
  text : String
  createdAt : Nat
deriving DecidableEq

/-- A task document, following the mongoose schema in models of the repo. -/
structure Task where
  id : Nat
  title : String
  description : Option String
  status : String
  priority : String
  project : Nat
  assignees : List Nat
  dueDate : Option Nat
  comments : List Comment
  createdAt : Nat
deriving DecidableEq

/-- A project document with its owner and member list. -/
structure Project where
  id : Nat
  name : String
  description : String
  owner : Nat
  members : List Nat
deriving DecidableEq

/-- The document store: the two collections the claims are about. -/
structure Db where
  projects : List Project
  tasks : List Task
deriving DecidableEq

/-- Response classification mirroring the HTTP statuses of the controllers:
404, 401, 400 and a 2xx payload. -/
inductive ApiResult (α : Type) where
  | notFound
  | unauthorized
  | badRequest (msg : String)
  | ok (val : α)
deriving DecidableEq

/-- Lexicographic comparison of character lists by code point, the order
JavaScript and BSON put on the ASCII strings the controllers compare. -/
def charsLt : List Char → List Char → Bool
  | [], [] => false
  | [], _ :: _ => true
  | _ :: _, [] => false
  | c :: cs, d :: ds => c.toNat < d.toNat || (c.toNat = d.toNat && charsLt cs ds)

/-- Strict string comparison by code point. -/
def strLt (a b : String) : Bool := charsLt a.toList b.toList

/-- Project.findById. -/
def findProject (db : Db) (pid : Nat) : Option Project :=
  db.projects.find? (fun p => p.id == pid)

/-- Task.findById. -/
def findTask (db : Db) (tid : Nat) : Option Task :=
  db.tasks.find? (fun t => t.id == tid)

/-- Saving a modified task document: replace the document with this id. -/
def updTask (db : Db) (t : Task) : Db :=
  { db with tasks := db.tasks.map (fun u => if u.id = t.id then t else u) }

/-- Saving a modified project document: replace the document with this id. -/
def updProject (db : Db) (p : Project) : Db :=
  { db with projects := db.projects.map (fun q => if q.id = p.id then p else q) }

/-! ### The keyset-paginated listing (getAllTasks) -/

/-- Query parameters of GET /api/tasks, after validation. -/
structure ListParams where
  cursor : Option Nat
  limit : Nat
  status : Option String
  priority : Option String
  assignee : Option Nat
  projectId : Option Nat
  sortBy : String
  sortOrder : String
deriving DecidableEq

/-- The JSON page returned by getAllTasks. -/
structure TaskPage where
  tasks : List Task
  nextCursor : Option Nat
  hasMore : Bool
  total : Nat
deriving DecidableEq

/-- A BSON sort value: missing fields sort as null, which BSON places
before numbers, which it places before strings. -/
inductive SortVal where
  | nullv
  | natv (n : Nat)
  | strv (s : String)
deriving DecidableEq

/-- Strict BSON comparison between sort values. -/
def sortValLt : SortVal → SortVal → Bool
  | .nullv, .nullv => false
  | .nullv, _ => true
  | .natv _, .nullv => false
  | .natv a, .natv b => a < b
  | .natv _, .strv _ => true
  | .strv a, .strv b => strLt a b
  | .strv _, _ => false

/-- The value a task contributes under a given sort field. -/
def sortVal (field : String) (t : Task) : SortVal :=
  if field = "dueDate" then
    match t.dueDate with
    | none => .nullv
    | some d => .natv d
  else if field = "priority" then .strv t.priority
  else if field = "title" then .strv t.title
  else .natv t.createdAt

/-- Ascending comparison under the compound sort key (sortField, id),
as produced by the sort stage of getAllTasks. -/
def taskKeyLe (field : String) (a b : Task) : Bool :=
  sortValLt (sortVal field a) (sortVal field b) ||
    (sortVal field a == sortVal field b && a.id ≤ b.id)

/-- The sort relation of getAllTasks, oriented by the requested order. -/
def taskRel (field : String) (asc : Bool) (a b : Task) : Prop :=
  (if asc then taskKeyLe field a b else taskKeyLe field b a) = true

instance (field : String) (asc : Bool) : DecidableRel (taskRel field asc) :=
  fun _ _ => inferInstanceAs (Decidable (_ = true))

/-- The ids of the projects the user is a member of, as collected by the
initial Project.find of getAllTasks. -/
def memberProjectIds (db : Db) (uid : Nat) : List Nat :=
  (db.projects.filter (fun p => p.members.contains uid)).map (fun p => p.id)

/-- The optional status, priority and assignee filters of the listing. -/
def fieldFilter (p : ListParams) (t : Task) : Bool :=
  (match p.status with
   | some s => t.status == s
   | none => true) &&
  (match p.priority with
   | some s => t.priority == s
   | none => true) &&
  (match p.assignee with
   | some a => t.assignees.contains a
   | none => true)

/-- GET /api/tasks: cursor-paginated, filtered, sorted listing.  Traced
from getAllTasks in the task controller: resolve the member projects,
answer an empty page when there are none, reject a projectId outside that
set, restrict by the field filters, add the cursor boundary predicate on
the id alone, sort by the pair (sortField, id), fetch limit plus one
records, and derive hasMore and nextCursor from the overflow record. -/
def getAllTasks (db : Db) (uid : Nat) (p : ListParams) : ApiResult TaskPage :=
  let projectIds := memberProjectIds db uid
  if projectIds.isEmpty then
    .ok { tasks := [], nextCursor := none, hasMore := false, total := 0 }
  else
    let projOk : Bool :=
      match p.projectId with
      | some pid => projectIds.contains pid
      | none => true
    if !projOk then .unauthorized
    else
      let projFilter : Task → Bool :=
        match p.projectId with
        | some pid => fun t => t.project == pid
        | none => fun t => projectIds.contains t.project
      let validFields := ["createdAt", "dueDate", "priority", "title"]
      let sortField := if validFields.contains p.sortBy then p.sortBy else "createdAt"
      let asc := p.sortOrder == "asc"
      let cursorFilter : Task → Bool :=
        match p.cursor with
        | some c => if asc then fun t => c < t.id else fun t => t.id < c
        | none => fun _ => true
      let base := db.tasks.filter (fun t => projFilter t && fieldFilter p t)
      let total := base.length
      let fetched := ((base.filter cursorFilter).insertionSort
        (taskRel sortField asc)).take (p.limit + 1)
      let hasMore := decide (p.limit < fetched.length)
      let resultTasks := if hasMore then fetched.take p.limit else fetched
      let nextCursor :=
        if hasMore && !resultTasks.isEmpty then
          resultTasks.getLast?.map (fun t => t.id)
        else none
      .ok { tasks := resultTasks, nextCursor := nextCursor,
            hasMore := hasMore, total := total }

/-- Drive the listing from a starting cursor, following nextCursor while
hasMore is set, and collect the returned task ids page by page.  The fuel
argument bounds the number of round trips. -/
def pagesIds (db : Db) (uid : Nat) (p : ListParams) :
    Nat → Option Nat → List Nat
  | 0, _ => []
  | fuel + 1, cur =>
    match getAllTasks db uid { p with cursor := cur } with
    | .ok pg =>
      pg.tasks.map (fun t => t.id) ++
        (if pg.hasMore then pagesIds db uid p fuel pg.nextCursor else [])
    | _ => []

/-- The ids listed on a single page, empty on a rejected request. -/
def pageIds (r : ApiResult TaskPage) : List Nat :=
  match r with
  | .ok pg => pg.tasks.map (fun t => t.id)
  | _ => []

/-- A minimal task of project 1 used by the pagination scenario. -/
def c1task (i : Nat) (ttl : String) : Task :=
  { id := i, title := ttl, description := none, status := "todo",
    priority := "medium", project := 1, assignees := [], dueDate := none,
    comments := [], createdAt := 100 }

/-- The project of the pagination scenario, owned by user 1. -/
def c1proj : Project :=
  { id := 1, name := "Eng", description := "", owner := 1, members := [1] }

/-- One project owned by user 1 holding three tasks whose title order
disagrees with their id order. -/
def c1db : Db :=
  { projects := [c1proj],
    tasks := [c1task 5 "a", c1task 1 "b", c1task 3 "c"] }

/-- Listing request of user 1: sort by title ascending, one task per page. -/
def c1params : ListParams :=
  { cursor := none, limit := 1, status := none, priority := none,
    assignee := none, projectId := none, sortBy := "title",
    sortOrder := "asc" }

/-- C1: pagination completeness fails on the code.  Under sortBy title
ascending with limit 1, following nextCursor until hasMore is false
returns only the id 5, while the unpaginated fetch of the same filter and
sort returns the ids 5, 1 and 3: the cursor boundary predicate constrains
the id alone, so after the page ending at id 5 every task with a smaller
id is dropped even though its title sorts later. -/
theorem c1_pagination_drops_records :
    pagesIds c1db 1 c1params 10 none = [5] ∧
    pageIds (getAllTasks c1db 1 { c1params with limit := 10 }) = [5, 1, 3] := by
  constructor <;> decide

/-! ### Project operations (project controller) -/

/-- POST /api/projects: create a project.  The creator becomes the owner
and is appended to the supplied member list, or becomes the sole member
when no list was supplied.  The store assigns the id. -/
def createProject (newId callerId : Nat) (name description : String)
    (members : Option (List Nat)) : Project :=
  { id := newId, name := name, description := description, owner := callerId,
    members :=
      match members with
      | some ms => ms ++ [callerId]
      | none => [callerId] }

/-- GET /api/projects/:id: fetch one project, visible to members only. -/
def getProjectById (db : Db) (callerId pid : Nat) : ApiResult Project :=
  match findProject db pid with
  | none => .notFound
  | some p =>
    if !(p.members.contains callerId) then .unauthorized
    else .ok p

/-- POST /api/projects/:id/members: owner-only, rejects duplicates,
appends the new member and saves.  Returns the new store and the saved
project. -/
def addMember (db : Db) (callerId pid newUserId : Nat) :
    ApiResult (Db × Project) :=
  match findProject db pid with
  | none => .notFound
  | some p =>
    if p.owner ≠ callerId then .unauthorized
    else if p.members.contains newUserId then .badRequest "User already a member"
    else
      let p2 := { p with members := p.members ++ [newUserId] }
      .ok (updProject db p2, p2)

/-- DELETE /api/projects/:id/members/:userId: owner-only, rejects removal
of the owner and of non-members, then filters the target out and saves. -/
def removeMember (db : Db) (callerId pid userId : Nat) :
    ApiResult (Db × Project) :=
  match findProject db pid with
  | none => .notFound
  | some p =>
    if p.owner ≠ callerId then .unauthorized
    else if userId = p.owner then .badRequest "Cannot remove the project owner"
    else if !(p.members.contains userId) then .badRequest "User is not a member"
    else
      let p2 := { p with members := p.members.filter (fun m => m != userId) }
      .ok (updProject db p2, p2)

/-! ### Task mutations (task controller) -/

/-- The body of POST /api/tasks after validation. -/
structure CreateTaskReq where
  title : String
  description : Option String
  status : Option String
  priority : Option String
  project : Nat
  assignees : Option (List Nat)
  dueDate : Option Nat
deriving DecidableEq

/-- JavaScript or-defaulting on an optional string field: an absent or
empty value falls back to the default. -/
def orDefault (o : Option String) (d : String) : String :=
  match o with
  | some s => if s = "" then d else s
  | none => d

/-- POST /api/tasks: the target project must exist and the caller must be
a member; status and priority default to todo and medium. -/
def createTask (db : Db) (callerId newId now : Nat) (req : CreateTaskReq) :
    ApiResult (Db × Task) :=
  match findProject db req.project with
  | none => .notFound
  | some pr =>
    if !(pr.members.contains callerId) then .unauthorized
    else
      let t : Task :=
        { id := newId, title := req.title, description := req.description,
          status := orDefault req.status "todo",
          priority := orDefault req.priority "medium",
          project := req.project, assignees := req.assignees.getD [],
          dueDate := req.dueDate, comments := [], createdAt := now }
      .ok ({ db with tasks := db.tasks ++ [t] }, t)

/-- GET /api/tasks/:id: a bare lookup.  The handler never reads the
requesting user, so the result cannot depend on project membership. -/
def getTaskById (db : Db) (callerId tid : Nat) : ApiResult Task :=
  match findTask db tid with
  | none => .notFound
  | some t => .ok t

/-- The body of PUT /api/tasks/:id: every field optional; for dueDate an
explicit null is distinguished from absence, mirroring the handler
testing against undefined. -/
structure UpdateReq where
  title : Option String
  description : Option String
  status : Option String
  priority : Option String
  dueDate : Option (Option Nat)
deriving DecidableEq

/-- The field merge of updateTask: title, status and priority are applied
when present and non-empty (JavaScript truthiness), description when
present, dueDate when present including an explicit null. -/
def applyUpdate (req : UpdateReq) (t : Task) : Task :=
  { t with
    title :=
      match req.title with
      | some s => if s = "" then t.title else s
      | none => t.title,
    description :=
      match req.description with
      | some s => some s
      | none => t.description,
    status :=
      match req.status with
      | some s => if s = "" then t.status else s
      | none => t.status,
    priority :=
      match req.priority with
      | some s => if s = "" then t.priority else s
      | none => t.priority,
    dueDate :=
      match req.dueDate with
      | some v => v
      | none => t.dueDate }

/-- PUT /api/tasks/:id: partial update of an existing task. -/
def updateTask (db : Db) (tid : Nat) (req : UpdateReq) :
    ApiResult (Db × Task) :=
  match findTask db tid with
  | none => .notFound
  | some t =>
    let t2 := applyUpdate req t
    .ok (updTask db t2, t2)

/-- POST /api/tasks/:id/assign: pushing a user that is already assigned
is rejected with a conflict before anything is written. -/
def assignUser (db : Db) (tid uid : Nat) : ApiResult (Db × Task) :=
  match findTask db tid with
  | none => .notFound
  | some t =>
    if t.assignees.contains uid then .badRequest "User already assigned"
    else
      let t2 := { t with assignees := t.assignees ++ [uid] }
      .ok (updTask db t2, t2)

/-- DELETE /api/tasks/:id/assign/:userId: filter-based removal with no
existence check on the target user. -/
def unassignUser (db : Db) (tid uid : Nat) : ApiResult (Db × Task) :=
  match findTask db tid with
  | none => .notFound
  | some t =>
    let t2 := { t with assignees := t.assignees.filter (fun a => a != uid) }
    .ok (updTask db t2, t2)

/-! ### The tasks-by-project listing -/

/-- Query parameters of GET /api/tasks/project/:projectId. -/
structure ProjParams where
  cursor : Option Nat
  limit : Nat
  status : Option String
  assignee : Option Nat
deriving DecidableEq

/-- The page returned by getTasksByProject. -/
structure ProjPage where
  tasks : List Task
  nextCursor : Option Nat
  hasMore : Bool
deriving DecidableEq

/-- The sort of getTasksByProject: createdAt descending only. -/
def createdAtDescRel (a b : Task) : Prop := b.createdAt ≤ a.createdAt

instance : DecidableRel createdAtDescRel :=
  fun a b => inferInstanceAs (Decidable (b.createdAt ≤ a.createdAt))

/-- GET /api/tasks/project/:projectId: membership-gated listing of one
project, filtered, cursor-bounded on the id, sorted by createdAt
descending. -/
def getTasksByProject (db : Db) (callerId pid : Nat) (p : ProjParams) :
    ApiResult ProjPage :=
  match findProject db pid with
  | none => .notFound
  | some pr =>
    if !(pr.members.contains callerId) then .unauthorized
    else
      let flt : Task → Bool := fun t =>
        t.project == pid &&
        (match p.status with
         | some s => t.status == s
         | none => true) &&
        (match p.assignee with
         | some a => t.assignees.contains a
         | none => true) &&
        (match p.cursor with
         | some c => decide (t.id < c)
         | none => true)
      let fetched :=
        ((db.tasks.filter flt).insertionSort createdAtDescRel).take (p.limit + 1)
      let hasMore := decide (p.limit < fetched.length)
      let resultTasks := if hasMore then fetched.take p.limit else fetched
      let nextCursor :=
        if hasMore then resultTasks.getLast?.map (fun t => t.id) else none
      .ok { tasks := resultTasks, nextCursor := nextCursor, hasMore := hasMore }

/-! ### Shared concrete store for witnesses -/

/-- A project owned by user 1 with users 1 and 2 as members. -/
def exProj : Project :=
  { id := 1, name := "Eng", description := "", owner := 1, members := [1, 2] }

/-- A task of that project with user 4 assigned. -/
def exTask : Task :=
  { id := 7, title := "t", description := none, status := "todo",
    priority := "medium", project := 1, assignees := [4], dueDate := none,
    comments := [], createdAt := 10 }

/-- The concrete store the witnesses run against. -/
def exDb : Db := { projects := [exProj], tasks := [exTask] }

/-! ### C5: the owner always stays a member -/

/-- C5: the owner belongs to the member set after project creation and
after every successful add-member and remove-member operation, and a
removal that targets the owner never succeeds, so the member set is left
unchanged by it. -/
theorem c5_owner_membership (db : Db) (callerId pid uid : Nat) (p : Project)
    (hp : findProject db pid = some p) (hInv : p.owner ∈ p.members) :
    (∀ newId cid n d ms,
      (createProject newId cid n d ms).owner ∈
        (createProject newId cid n d ms).members) ∧
    (∀ db2 q, addMember db callerId pid uid = .ok (db2, q) →
      q.owner ∈ q.members) ∧
    (∀ db2 q, removeMember db callerId pid uid = .ok (db2, q) →
      q.owner ∈ q.members) ∧
    (uid = p.owner → ∀ r, removeMember db callerId pid uid ≠ .ok r) := by
  refine ⟨?_, ?_, ?_, ?_⟩
  · intro newId cid n d ms
    cases ms <;> simp [createProject]
  · intro db2 q h
    simp only [addMember, hp] at h
    by_cases h1 : p.owner = callerId
    · rw [if_neg (by simp [h1])] at h
      by_cases h3 : p.members.contains uid = true
      · rw [if_pos h3] at h
        simp at h
      · rw [if_neg h3] at h
        rw [ApiResult.ok.injEq, Prod.mk.injEq] at h
        obtain ⟨-, hq⟩ := h
        subst hq
        exact List.mem_append_left _ hInv
    · rw [if_pos (by simp [h1])] at h
      simp at h
  · intro db2 q h
    simp only [removeMember, hp] at h
    by_cases h1 : p.owner = callerId
    · rw [if_neg (by simp [h1])] at h
      by_cases h2 : uid = p.owner
      · rw [if_pos h2] at h
        simp at h
      · rw [if_neg h2] at h
        by_cases h3 : p.members.contains uid = true
        · rw [if_neg (by rw [h3]; decide)] at h
          rw [ApiResult.ok.injEq, Prod.mk.injEq] at h
          obtain ⟨-, hq⟩ := h
          subst hq
          refine List.mem_filter.mpr ⟨hInv, ?_⟩
          exact bne_iff_ne.mpr (fun hc => h2 hc.symm)
        · have h4 : p.members.contains uid = false := by
            cases hcc : p.members.contains uid
            · rfl
            · exact absurd hcc h3
          rw [if_pos (by rw [h4]; decide)] at h
          simp at h
    · rw [if_pos (by simp [h1])] at h
      simp at h
  · intro hOwn r h
    simp only [removeMember, hp] at h
    by_cases h1 : p.owner = callerId
    · rw [if_neg (by simp [h1]), if_pos hOwn] at h
      simp at h
    · rw [if_pos (by simp [h1])] at h
      simp at h

/-- Witness for C5 at the concrete store: project 1 exists, its owner 1
is a member, and user 2 is the removal target. -/
theorem c5_owner_membership_witness :
    (∀ newId cid n d ms,
      (Taskman.createProject newId cid n d ms).owner ∈
        (Taskman.createProject newId cid n d ms).members) ∧
    (∀ db2 q, addMember exDb 1 1 2 = .ok (db2, q) → q.owner ∈ q.members) ∧
    (∀ db2 q, removeMember exDb 1 1 2 = .ok (db2, q) → q.owner ∈ q.members) ∧
    (2 = exProj.owner → ∀ r, removeMember exDb 1 1 2 ≠ .ok r) :=
  c5_owner_membership exDb 1 1 2 exProj rfl (by decide)

/-! ### C6: assignment conflict versus silent unassignment -/

/-- C6: assigning a user already in the assignee set is rejected with the
conflict message before any write, while unassigning a user that is not
assigned succeeds and returns the task with its assignee set unchanged. -/
theorem c6_assignment_asymmetry (db : Db) (tid uid : Nat) (t : Task)
    (ht : findTask db tid = some t) :
    (uid ∈ t.assignees →
      assignUser db tid uid = .badRequest "User already assigned") ∧
    (uid ∉ t.assignees →
      ∃ db2, unassignUser db tid uid = .ok (db2, t)) := by
  constructor
  · intro hmem
    have hc : t.assignees.contains uid = true :=
      List.elem_eq_true_of_mem hmem
    simp only [assignUser, ht]
    rw [if_pos hc]
  · intro hnot
    have hf : t.assignees.filter (fun a => a != uid) = t.assignees := by
      refine List.filter_eq_self.mpr ?_
      intro a ha
      simp only [bne_iff_ne, ne_eq]
      intro hc
      exact hnot (hc ▸ ha)
    refine ⟨updTask db t, ?_⟩
    simp [unassignUser, ht, hf]

/-- Witness for C6: task 7 exists and user 4 is already assigned, so the
second assignment is the rejected conflict. -/
theorem c6_assignment_asymmetry_witness :
    (4 ∈ exTask.assignees →
      assignUser exDb 7 4 = .badRequest "User already assigned") ∧
    (4 ∉ exTask.assignees →
      ∃ db2, unassignUser exDb 7 4 = .ok (db2, exTask)) :=
  c6_assignment_asymmetry exDb 7 4 exTask rfl

/-! ### C7: partial update frame -/

/-- C7: updating an existing task applies title, description, status,
priority and dueDate only when present in the request, keeps every absent
field at its prior value, and never touches the id, project, assignees,
comments or createdAt of the task. -/
theorem c7_update_frame (db : Db) (tid : Nat) (req : UpdateReq)
    (t : Task) (ht : findTask db tid = some t) :
    ∃ db2 t2, updateTask db tid req = .ok (db2, t2) ∧
      (req.title = none → t2.title = t.title) ∧
      (req.description = none → t2.description = t.description) ∧
      (req.status = none → t2.status = t.status) ∧
      (req.priority = none → t2.priority = t.priority) ∧
      (req.dueDate = none → t2.dueDate = t.dueDate) ∧
      t2.id = t.id ∧ t2.project = t.project ∧ t2.assignees = t.assignees ∧
      t2.comments = t.comments ∧ t2.createdAt = t.createdAt := by
  refine ⟨updTask db (applyUpdate req t), applyUpdate req t, ?_, ?_, ?_, ?_,
    ?_, ?_, ?_, ?_, ?_, ?_, ?_⟩
  · simp [updateTask, ht]
  · intro h; simp [applyUpdate, h]
  · intro h; simp [applyUpdate, h]
  · intro h; simp [applyUpdate, h]
  · intro h; simp [applyUpdate, h]
  · intro h; simp [applyUpdate, h]
  · simp [applyUpdate]
  · simp [applyUpdate]
  · simp [applyUpdate]
  · simp [applyUpdate]
  · simp [applyUpdate]

/-- A concrete partial update request that only sets the status. -/
def c7req : UpdateReq :=
  { title := none, description := none, status := some "done",
    priority := none, dueDate := none }

/-- Witness for C7 at the concrete store: task 7 exists and is updated
with a request carrying only a status. -/
theorem c7_update_frame_witness :
    ∃ db2 t2, updateTask exDb 7 c7req = .ok (db2, t2) ∧
      (c7req.title = none → t2.title = exTask.title) ∧
      (c7req.description = none → t2.description = exTask.description) ∧
      (c7req.status = none → t2.status = exTask.status) ∧
      (c7req.priority = none → t2.priority = exTask.priority) ∧
      (c7req.dueDate = none → t2.dueDate = exTask.dueDate) ∧
      t2.id = exTask.id ∧ t2.project = exTask.project ∧
      t2.assignees = exTask.assignees ∧ t2.comments = exTask.comments ∧
      t2.createdAt = exTask.createdAt :=
  c7_update_frame exDb 7 c7req exTask rfl

/-! ### C8: existence check precedes the authorization check -/

/-- C8: for every membership- or ownership-gated project operation, a
missing project id answers notFound, and an unauthorized answer implies
the project exists. -/
theorem c8_existence_check_precedes_auth (db : Db)
    (callerId pid newId now uid : Nat) (req : CreateTaskReq)
    (pp : ProjParams) (hreq : req.project = pid) :
    (findProject db pid = none →
      createTask db callerId newId now req = .notFound ∧
      getTasksByProject db callerId pid pp = .notFound ∧
      addMember db callerId pid uid = .notFound ∧
      removeMember db callerId pid uid = .notFound ∧
      getProjectById db callerId pid = .notFound) ∧
    ((createTask db callerId newId now req = .unauthorized ∨
      getTasksByProject db callerId pid pp = .unauthorized ∨
      addMember db callerId pid uid = .unauthorized ∨
      removeMember db callerId pid uid = .unauthorized ∨
      getProjectById db callerId pid = .unauthorized) →
      ∃ pr, findProject db pid = some pr) := by
  subst hreq
  constructor
  · intro h
    refine ⟨?_, ?_, ?_, ?_, ?_⟩ <;>
      simp [createTask, getTasksByProject, addMember, removeMember,
        getProjectById, h]
  · intro h
    cases hf : findProject db req.project with
    | some pr => exact ⟨pr, rfl⟩
    | none =>
      rcases h with h | h | h | h | h <;>
        simp [createTask, getTasksByProject, addMember, removeMember,
          getProjectById, hf] at h

/-- A creation request naming the absent project 99. -/
def c8req : CreateTaskReq :=
  { title := "a", description := none, status := none, priority := none,
    project := 99, assignees := none, dueDate := none }

/-- Empty query parameters for the by-project listing. -/
def c8pp : ProjParams :=
  { cursor := none, limit := 50, status := none, assignee := none }

/-- Witness for C8 at the concrete store: project 99 does not exist, so
every gated operation on it answers notFound. -/
theorem c8_existence_check_precedes_auth_witness :
    (findProject exDb 99 = none →
      createTask exDb 1 8 11 c8req = .notFound ∧
      getTasksByProject exDb 1 99 c8pp = .notFound ∧
      addMember exDb 1 99 2 = .notFound ∧
      removeMember exDb 1 99 2 = .notFound ∧
      getProjectById exDb 1 99 = .notFound) ∧
    ((createTask exDb 1 8 11 c8req = .unauthorized ∨
      getTasksByProject exDb 1 99 c8pp = .unauthorized ∨
      addMember exDb 1 99 2 = .unauthorized ∨
      removeMember exDb 1 99 2 = .unauthorized ∨
      getProjectById exDb 1 99 = .unauthorized) →
      ∃ pr, findProject exDb 99 = some pr) :=
  c8_existence_check_precedes_auth exDb 1 99 8 11 2 c8req c8pp rfl

/-! ### C9: the single-task read has no membership gate -/

/-- C9: getTaskById returns the stored task whenever it exists and
notFound otherwise, and its answer does not depend on who asks, so no
project-membership check is involved. -/
theorem c9_task_read_no_membership (db : Db) (callerId tid : Nat) :
    (∀ t, findTask db tid = some t → getTaskById db callerId tid = .ok t) ∧
    (findTask db tid = none → getTaskById db callerId tid = .notFound) ∧
    (∀ otherId, getTaskById db callerId tid = getTaskById db otherId tid) := by
  refine ⟨?_, ?_, ?_⟩
  · intro t ht; simp [getTaskById, ht]
  · intro h; simp [getTaskById, h]
  · intro otherId; rfl

/-- Witness for C9 at the concrete store with caller 5, who is not a
member of project 1, reading task 7. -/
theorem c9_task_read_no_membership_witness :
    (∀ t, findTask exDb 7 = some t → getTaskById exDb 5 7 = .ok t) ∧
    (findTask exDb 7 = none → getTaskById exDb 5 7 = .notFound) ∧
    (∀ otherId, getTaskById exDb 5 7 = getTaskById exDb otherId 7) :=
  c9_task_read_no_membership exDb 5 7

/-! ### The relevance-scored text search (searchTasksText) -/

/-- ASCII lowering of a code point, as the i flag of the search regex
does on the ASCII strings involved. -/
def lowerCode (n : Nat) : Nat :=
  if 65 ≤ n ∧ n ≤ 90 then n + 32 else n

/-- The lowered code points of a string. -/
def lowerCodes (s : String) : List Nat :=
  s.toList.map (fun c => lowerCode c.toNat)

/-- Whether the first list begins the second. -/
def beginsWith : List Nat → List Nat → Bool
  | [], _ => true
  | _ :: _, [] => false
  | a :: as, b :: bs => a = b && beginsWith as bs

/-- Whether the first list occurs contiguously inside the second. -/
def containsSeg (needle : List Nat) : List Nat → Bool
  | [] => needle.isEmpty
  | c :: rest => beginsWith needle (c :: rest) || containsSeg needle rest

/-- Case-insensitive substring containment: the model of testing the
search term as a regular expression with the i flag against a field. -/
def ciContains (needle hay : String) : Bool :=
  containsSeg (lowerCodes needle) (lowerCodes hay)

/-- Code points JavaScript trim removes at either end. -/
def isWsCode (n : Nat) : Bool := n = 32 || n = 9 || n = 10 || n = 13

/-- The JavaScript trim of a query string. -/
def trimStr (s : String) : String :=
  (((s.toList.dropWhile (fun c => isWsCode c.toNat)).reverse.dropWhile
    (fun c => isWsCode c.toNat)).reverse).asString

/-- Query parameters of GET /api/tasks/search/text after validation. -/
structure SearchParams where
  q : String
  projectId : Option Nat
  limit : Nat
  includeMatchDetails : Bool
deriving DecidableEq

/-- One task with the match fields the addFields stages of the search
pipeline compute for it. -/
structure Enriched where
  task : Task
  titleMatch : Bool
  descriptionMatch : Bool
  matchingComments : List Comment
deriving DecidableEq

/-- The addFields stage: title match, description match guarded by the
ifNull fallback, and the filtered matching comments. -/
def enrich (term : String) (t : Task) : Enriched :=
  { task := t
    titleMatch := ciContains term t.title
    descriptionMatch :=
      match t.description with
      | none => false
      | some d => ciContains term d
    matchingComments := t.comments.filter (fun c => ciContains term c.text) }

/-- The hasCommentMatch field: the matching comment list is non-empty. -/
def hasCommentMatch (e : Enriched) : Bool := !e.matchingComments.isEmpty

/-- The qualifying match stage: at least one field matched. -/
def qualifies (e : Enriched) : Bool :=
  e.titleMatch || e.descriptionMatch || hasCommentMatch e

/-- The pipeline relevance score: 3 for a title match plus 2 for a
description match plus 1 for a comment match. -/
def relevanceScore (e : Enriched) : Nat :=
  (if e.titleMatch then 3 else 0) + (if e.descriptionMatch then 2 else 0) +
    (if hasCommentMatch e then 1 else 0)

/-- The matchedFields array in pipeline order. -/
def matchedFields (e : Enriched) : List String :=
  (if e.titleMatch then ["title"] else []) ++
    (if e.descriptionMatch then ["description"] else []) ++
    (if hasCommentMatch e then ["comments"] else [])

/-- The sort stage of the pipeline: relevance score descending, ties by
createdAt descending. -/
def searchRel (a b : Enriched) : Prop :=
  relevanceScore b < relevanceScore a ∨
    (relevanceScore a = relevanceScore b ∧ b.task.createdAt ≤ a.task.createdAt)

instance : DecidableRel searchRel :=
  fun _ _ => inferInstanceAs (Decidable (_ ∨ _))

instance : IsTotal Enriched searchRel :=
  ⟨by intro a b; unfold searchRel; omega⟩

instance : IsTrans Enriched searchRel :=
  ⟨by intro a b c; unfold searchRel; omega⟩

/-- The matchDetails object attached to a result when requested. -/
structure MatchDetails where
  matchedFields : List String
  relevanceScore : Nat
  matchingCommentCount : Nat
  matchingCommentSnippets : List String
deriving DecidableEq

/-- One search result after the final projection stage. -/
structure SearchResultItem where
  id : Nat
  title : String
  description : Option String
  status : String
  priority : String
  dueDate : Option Nat
  createdAt : Nat
  project : Nat
  assignees : List Nat
  comments : List Comment
  matchDetails : Option MatchDetails
deriving DecidableEq

/-- The final projection: the task fields plus, when requested, the
matched fields, the score, the matching comment count and up to three
comment snippets cut at 100 code points. -/
def projectResult (showDetails : Bool) (e : Enriched) : SearchResultItem :=
  { id := e.task.id, title := e.task.title, description := e.task.description,
    status := e.task.status, priority := e.task.priority,
    dueDate := e.task.dueDate, createdAt := e.task.createdAt,
    project := e.task.project, assignees := e.task.assignees,
    comments := e.task.comments,
    matchDetails :=
      if showDetails then
        some { matchedFields := matchedFields e,
               relevanceScore := relevanceScore e,
               matchingCommentCount := e.matchingComments.length,
               matchingCommentSnippets :=
                 (e.matchingComments.take 3).map
                   (fun c => (c.text.toList.take 100).asString) }
      else none }

/-- The JSON body returned by the text search. -/
structure SearchOut where
  query : String
  totalResults : Nat
  returnedResults : Nat
  results : List SearchResultItem
deriving DecidableEq

/-- The enriched records the pipeline keeps, in their final order before
the limit stage: qualifying candidates sorted by the search relation. -/
def searchRanked (db : Db) (term : String) (projectId : Option Nat) :
    List Enriched :=
  let candidates : List Task :=
    match projectId with
    | some pid => db.tasks.filter (fun t => t.project == pid)
    | none => db.tasks
  ((candidates.map (enrich term)).filter qualifies).insertionSort searchRel

/-- The successful body of the text search: the pipeline limited to
min(limit or 20, 50) results, with the count pipeline supplying the
total. -/
def searchCompute (db : Db) (p : SearchParams) : SearchOut :=
  let term := trimStr p.q
  let resultLimit := min (if p.limit = 0 then 20 else p.limit) 50
  let ranked := searchRanked db term p.projectId
  let limited := ranked.take resultLimit
  { query := term, totalResults := ranked.length,
    returnedResults := limited.length,
    results := limited.map (projectResult p.includeMatchDetails) }

/-- GET /api/tasks/search/text: an empty trimmed query is rejected,
otherwise the pipeline answer is returned.  The handler checks only the
format of a supplied projectId; it never consults the caller or any
membership data. -/
def searchTasksText (db : Db) (p : SearchParams) : ApiResult SearchOut :=
  if trimStr p.q = "" then .badRequest "Search query required"
  else .ok (searchCompute db p)

/-! ### Spec-side scoring, for comparison with the pipeline -/

/-- Whether the title of a returned record matches the term. -/
def titleMatched (term : String) (r : SearchResultItem) : Bool :=
  ciContains term r.title

/-- Whether the description of a returned record matches the term. -/
def descMatched (term : String) (r : SearchResultItem) : Bool :=
  match r.description with
  | none => false
  | some d => ciContains term d

/-- Whether some comment of a returned record matches the term. -/
def commentMatched (term : String) (r : SearchResultItem) : Bool :=
  r.comments.any (fun c => ciContains term c.text)

/-- The score the spec prescribes, recomputed from the visible fields of
a returned record: 3 for a title match plus 2 for a description match
plus 1 for a comment match. -/
def specRelevanceScore (term : String) (r : SearchResultItem) : Nat :=
  (if titleMatched term r then 3 else 0) +
    (if descMatched term r then 2 else 0) +
    (if commentMatched term r then 1 else 0)

/-- The relevance score a returned record reports, zero when the match
details were not requested. -/
def mdScore (r : SearchResultItem) : Nat :=
  match r.matchDetails with
  | some md => md.relevanceScore
  | none => 0

/-! ### C3: membership gating of the two query-engine reads -/

/-- The ids a search response lists, empty on a rejected request. -/
def resultIds (r : ApiResult SearchOut) : List Nat :=
  match r with
  | .ok o => o.results.map (fun x => x.id)
  | _ => []

/-- A project whose only member is user 1. -/
def c3proj : Project :=
  { id := 1, name := "P", description := "", owner := 1, members := [1] }

/-- A task of that project whose title matches the query. -/
def c3task : Task :=
  { id := 9, title := "foo task", description := none, status := "todo",
    priority := "medium", project := 1, assignees := [], dueDate := none,
    comments := [], createdAt := 1 }

/-- The store of the search counterexample. -/
def c3db : Db := { projects := [c3proj], tasks := [c3task] }

/-- A text search restricted to project 1. -/
def c3sp : SearchParams :=
  { q := "foo", projectId := some 1, limit := 20,
    includeMatchDetails := true }

/-- C3 counterexample: caller 2 is a member of no project, so project 1
is outside the membership set of caller 2, yet the text search with
projectId 1 is not rejected as unauthorized and returns the data of task
9 of project 1.  The text search handler never consults membership. -/
theorem c3_counterexample :
    memberProjectIds c3db 2 = [] ∧
    searchTasksText c3db c3sp ≠ .unauthorized ∧
    resultIds (searchTasksText c3db c3sp) = [9] ∧
    c3task.project = 1 := by
  refine ⟨by decide, by decide, by decide, rfl⟩

/-- C3 as amended: the paginated listing answers unauthorized for a
projectId outside the membership set whenever the caller belongs to at
least one project, and answers an empty page when the caller belongs to
none; the text search never answers unauthorized at all, performing no
membership check. -/
theorem c3_amended_membership_gate (db : Db) (uid pid : Nat) (p : ListParams)
    (hpid : p.projectId = some pid) (hnm : pid ∉ memberProjectIds db uid) :
    (memberProjectIds db uid ≠ [] → getAllTasks db uid p = .unauthorized) ∧
    (memberProjectIds db uid = [] →
      getAllTasks db uid p =
        .ok { tasks := [], nextCursor := none, hasMore := false, total := 0 }) ∧
    (∀ sp : SearchParams, ∀ db2 : Db, searchTasksText db2 sp ≠ .unauthorized) := by
  refine ⟨?_, ?_, ?_⟩
  · intro hne
    have hc : (memberProjectIds db uid).contains pid = false := by
      cases hcc : (memberProjectIds db uid).contains pid
      · rfl
      · exact absurd (by simpa using hcc) hnm
    have hie : (memberProjectIds db uid).isEmpty = false := by
      cases hee : (memberProjectIds db uid).isEmpty
      · rfl
      · exact absurd (by simpa using hee) hne
    simp [getAllTasks, hpid, hc, hie, hnm]
  · intro he
    have hie : (memberProjectIds db uid).isEmpty = true := by simp [he]
    simp [getAllTasks, hie]
  · intro sp db2 hcon
    by_cases ht : trimStr sp.q = ""
    · simp [searchTasksText, ht] at hcon
    · simp [searchTasksText, ht] at hcon

/-- The listing request of the C3 witness: member 2 of project 1 asks
for the foreign project 5. -/
def c3lp : ListParams :=
  { cursor := none, limit := 20, status := none, priority := none,
    assignee := none, projectId := some 5, sortBy := "createdAt",
    sortOrder := "desc" }

/-- Witness for the amended C3: caller 2 belongs to project 1 only, and
the request names project 5. -/
theorem c3_amended_membership_gate_witness :
    (memberProjectIds exDb 2 ≠ [] → getAllTasks exDb 2 c3lp = .unauthorized) ∧
    (memberProjectIds exDb 2 = [] →
      getAllTasks exDb 2 c3lp =
        .ok { tasks := [], nextCursor := none, hasMore := false, total := 0 }) ∧
    (∀ sp : SearchParams, ∀ db2 : Db, searchTasksText db2 sp ≠ .unauthorized) :=
  c3_amended_membership_gate exDb 2 5 c3lp rfl (by decide)

/-! ### C4: relevance scoring and ordering -/

/-- A filtered list is non-empty exactly when some element passes. -/
theorem any_eq_not_isEmpty_filter {α : Type} (f : α → Bool) (l : List α) :
    (!(l.filter f).isEmpty) = l.any f := by
  induction l with
  | nil => rfl
  | cons a l ih =>
    cases h : f a
    · simp [List.filter_cons, h, ih]
    · simp [List.filter_cons, h]

/-- The score the spec recomputes from a projected result agrees with the
score the pipeline stored for the enriched record. -/
theorem specScore_projectResult (term : String) (t : Task) (b : Bool) :
    specRelevanceScore term (projectResult b (enrich term t)) =
      relevanceScore (enrich term t) := by
  have h3 : (!(List.filter (fun c => ciContains term c.text) t.comments).isEmpty)
      = t.comments.any (fun c => ciContains term c.text) :=
    any_eq_not_isEmpty_filter _ _
  simp only [specRelevanceScore, titleMatched, descMatched, commentMatched,
    projectResult, relevanceScore, enrich, hasCommentMatch, h3]

/-- Every record the pipeline ranks is the enrichment of some task. -/
theorem searchRanked_mem (db : Db) (term : String) (pid : Option Nat)
    (e : Enriched) (he : e ∈ searchRanked db term pid) :
    ∃ t : Task, e = enrich term t := by
  simp only [searchRanked] at he
  rw [List.mem_insertionSort] at he
  have he2 := List.mem_of_mem_filter he
  rw [List.mem_map] at he2
  obtain ⟨t, -, ht⟩ := he2
  exact ⟨t, ht.symm⟩

/-- The ranked pipeline output is sorted by the search relation. -/
theorem searchRanked_pairwise (db : Db) (term : String) (pid : Option Nat) :
    (searchRanked db term pid).Pairwise searchRel := by
  simp only [searchRanked]
  exact List.sorted_insertionSort searchRel _

/-- C4: on a non-empty query with match details requested, the text
search succeeds, every returned record carries a relevance score equal to
3 for a title match plus 2 for a description match plus 1 for a comment
match recomputed from its own fields, the result list is ordered by that
score descending with ties broken by createdAt descending, and any record
matching only in the title is ranked before any record matching only in a
comment. -/
theorem c4_relevance_scoring (db : Db) (p : SearchParams)
    (hq : trimStr p.q ≠ "") (hd : p.includeMatchDetails = true) :
    searchTasksText db p = .ok (searchCompute db p) ∧
    (∀ r ∈ (searchCompute db p).results,
      ∃ md, r.matchDetails = some md ∧
        md.relevanceScore = specRelevanceScore (trimStr p.q) r) ∧
    (searchCompute db p).results.Pairwise (fun a b =>
      mdScore b < mdScore a ∨
        (mdScore a = mdScore b ∧ b.createdAt ≤ a.createdAt)) ∧
    (∀ i j : Fin (searchCompute db p).results.length,
      (titleMatched (trimStr p.q) ((searchCompute db p).results.get i) = true ∧
        descMatched (trimStr p.q) ((searchCompute db p).results.get i) = false ∧
        commentMatched (trimStr p.q) ((searchCompute db p).results.get i) = false) →
      (titleMatched (trimStr p.q) ((searchCompute db p).results.get j) = false ∧
        descMatched (trimStr p.q) ((searchCompute db p).results.get j) = false ∧
        commentMatched (trimStr p.q) ((searchCompute db p).results.get j) = true) →
      i.val < j.val) := by
  have hA : ∀ r ∈ (searchCompute db p).results,
      ∃ md, r.matchDetails = some md ∧
        md.relevanceScore = specRelevanceScore (trimStr p.q) r := by
    intro r hr
    simp only [searchCompute] at hr
    rw [List.mem_map] at hr
    obtain ⟨e, he, hre⟩ := hr
    have he2 : e ∈ searchRanked db (trimStr p.q) p.projectId :=
      List.mem_of_mem_take he
    obtain ⟨t, het⟩ := searchRanked_mem _ _ _ _ he2
    subst hre
    rw [hd, het]
    exact ⟨_, rfl, by rw [specScore_projectResult]⟩
  have hB : (searchCompute db p).results.Pairwise (fun a b =>
      mdScore b < mdScore a ∨
        (mdScore a = mdScore b ∧ b.createdAt ≤ a.createdAt)) := by
    have hp0 := searchRanked_pairwise db (trimStr p.q) p.projectId
    have hpt := List.Pairwise.sublist
      (List.take_sublist (min (if p.limit = 0 then 20 else p.limit) 50)
        (searchRanked db (trimStr p.q) p.projectId)) hp0
    simp only [searchCompute]
    rw [hd, List.pairwise_map]
    exact hpt.imp (fun hab => hab)
  refine ⟨by simp [searchTasksText, hq], hA, hB, ?_⟩
  intro i j hti htj
  obtain ⟨ht1, ht2, ht3⟩ := hti
  obtain ⟨hc1, hc2, hc3⟩ := htj
  have ht1g := ht1
  have ht2g := ht2
  have ht3g := ht3
  have hc1g := hc1
  have hc2g := hc2
  have hc3g := hc3
  simp only [List.get_eq_getElem] at ht1g ht2g ht3g hc1g hc2g hc3g
  have hmemi : (searchCompute db p).results.get i ∈ (searchCompute db p).results :=
    List.get_mem _ i.val i.isLt
  have hmemj : (searchCompute db p).results.get j ∈ (searchCompute db p).results :=
    List.get_mem _ j.val j.isLt
  obtain ⟨mdi, hmdi, hsci⟩ := hA _ hmemi
  obtain ⟨mdj, hmdj, hscj⟩ := hA _ hmemj
  have hsi : specRelevanceScore (trimStr p.q)
      ((searchCompute db p).results.get i) = 3 := by
    simp [specRelevanceScore, ht1g, ht2g, ht3g]
  have hsj : specRelevanceScore (trimStr p.q)
      ((searchCompute db p).results.get j) = 1 := by
    simp [specRelevanceScore, hc1g, hc2g, hc3g]
  have hmi : mdScore ((searchCompute db p).results.get i) = 3 := by
    unfold mdScore
    rw [hmdi]
    exact hsci.trans hsi
  have hmj : mdScore ((searchCompute db p).results.get j) = 1 := by
    unfold mdScore
    rw [hmdj]
    exact hscj.trans hsj
  rcases Nat.lt_trichotomy i.val j.val with h | h | h
  · exact h
  · exfalso
    have heq : (searchCompute db p).results.get i =
        (searchCompute db p).results.get j := by
      congr 1
      exact Fin.ext h
    rw [heq, hc1] at ht1
    exact absurd ht1 (by decide)
  · exfalso
    have hpg := List.pairwise_iff_get.mp hB j i h
    rw [hmi, hmj] at hpg
    rcases hpg with h1 | ⟨h2, -⟩
    · omega
    · omega

/-- A task matching the query only in a comment: score 1. -/
def c4taskA : Task :=
  { id := 1, title := "alpha", description := none, status := "todo",
    priority := "medium", project := 1, assignees := [], dueDate := none,
    comments := [{ user := 1, text := "foo inside", createdAt := 5 }],
    createdAt := 10 }

/-- A task matching the query only in the title: score 3. -/
def c4taskB : Task :=
  { id := 2, title := "foo beta", description := none, status := "todo",
    priority := "medium", project := 1, assignees := [], dueDate := none,
    comments := [], createdAt := 20 }

/-- A task matching in description and a comment: score 3. -/
def c4taskC : Task :=
  { id := 3, title := "gamma", description := some "has foo",
    status := "todo", priority := "medium", project := 1, assignees := [],
    dueDate := none,
    comments := [{ user := 1, text := "foo again", createdAt := 6 }],
    createdAt := 30 }

/-- The store of the relevance scenario. -/
def c4db : Db := { projects := [], tasks := [c4taskA, c4taskB, c4taskC] }

/-- The search request of the relevance scenario. -/
def c4sp : SearchParams :=
  { q := "foo", projectId := none, limit := 20, includeMatchDetails := true }

/-- Witness for C4: the scenario of the spec, one comment-only match, one
title-only match and one description-plus-comment match under the query
foo. -/
theorem c4_relevance_scoring_witness :
    searchTasksText c4db c4sp = .ok (searchCompute c4db c4sp) ∧
    (∀ r ∈ (searchCompute c4db c4sp).results,
      ∃ md, r.matchDetails = some md ∧
        md.relevanceScore = specRelevanceScore (trimStr c4sp.q) r) ∧
    (searchCompute c4db c4sp).results.Pairwise (fun a b =>
      mdScore b < mdScore a ∨
        (mdScore a = mdScore b ∧ b.createdAt ≤ a.createdAt)) ∧
    (∀ i j : Fin (searchCompute c4db c4sp).results.length,
      (titleMatched (trimStr c4sp.q)
          ((searchCompute c4db c4sp).results.get i) = true ∧
        descMatched (trimStr c4sp.q)
          ((searchCompute c4db c4sp).results.get i) = false ∧
        commentMatched (trimStr c4sp.q)
          ((searchCompute c4db c4sp).results.get i) = false) →
      (titleMatched (trimStr c4sp.q)
          ((searchCompute c4db c4sp).results.get j) = false ∧
        descMatched (trimStr c4sp.q)
          ((searchCompute c4db c4sp).results.get j) = false ∧
        commentMatched (trimStr c4sp.q)
          ((searchCompute c4db c4sp).results.get j) = true) →
      i.val < j.val) :=
  c4_relevance_scoring c4db c4sp (by decide) rfl

/-! ### The presence registry (socket layer)

The two module-level JavaScript Maps become association lists keyed by
the numbers the code keys them by: onlineUsers maps a project id to an
inner map keyed by user id, and the global map is keyed by user id.  A
socket becomes a Session carrying the fields the handlers read and write
on the socket object. -/

/-- Map.get: the value stored under a key. -/
def alGet {α : Type} (k : Nat) : List (Nat × α) → Option α
  | [] => none
  | (k2, v) :: rest => if k2 = k then some v else alGet k rest

/-- Map.set: replace the binding of the key or append one. -/
def alSet {α : Type} (k : Nat) (v : α) : List (Nat × α) → List (Nat × α)
  | [] => [(k, v)]
  | (k2, v2) :: rest =>
    if k2 = k then (k, v) :: rest else (k2, v2) :: alSet k v rest

/-- Map.delete: drop the binding of the key. -/
def alDel {α : Type} (k : Nat) (l : List (Nat × α)) : List (Nat × α) :=
  l.filter (fun kv => kv.1 != k)

/-- An entry of a per-project presence map. -/
structure PresEntry where
  userId : Nat
  socketId : Nat
  name : String
deriving DecidableEq

/-- An entry of the global presence map. -/
structure GlobalEntry where
  userId : Nat
  socketId : Nat
  name : String
  currentProject : Option Nat
deriving DecidableEq

/-- One connected socket: its id, the authenticated user, the display
name, the currentProject field the handlers maintain, and the rooms the
socket has joined. -/
structure Session where
  sid : Nat
  userId : Nat
  userName : String
  currentProject : Option Nat
  rooms : List Nat
deriving DecidableEq

/-- The process-local state of the socket layer. -/
structure SState where
  sessions : List Session
  onlineUsers : List (Nat × List (Nat × PresEntry))
  globalOnline : List (Nat × GlobalEntry)
deriving DecidableEq

/-- The session with a given socket id. -/
def findSession (st : SState) (sid : Nat) : Option Session :=
  st.sessions.find? (fun s => s.sid == sid)

/-- Store back the mutated fields of a socket. -/
def setSession (st : SState) (s : Session) : SState :=
  { st with sessions := st.sessions.map (fun u => if u.sid = s.sid then s else u) }

/-- The connection handler: register the session and put the user in the
global map with no current project. -/
def connect (st : SState) (sid uid : Nat) (name : String) : SState :=
  let sess : Session :=
    { sid := sid, userId := uid, userName := name,
      currentProject := none, rooms := [] }
  let entry : GlobalEntry :=
    { userId := uid, socketId := sid, name := name, currentProject := none }
  { st with
    sessions := st.sessions ++ [sess],
    globalOnline := alSet uid entry st.globalOnline }

/-- The project:join handler: join the room, remember the current
project on the socket, write the user into the per-project map keyed by
user id, and point the global entry at the project.  No membership data
exists in this layer, so nothing is checked. -/
def projectJoin (st : SState) (sid pid : Nat) : SState :=
  match findSession st sid with
  | none => st
  | some s =>
    let newRooms := if s.rooms.contains pid then s.rooms else pid :: s.rooms
    let s2 := { s with currentProject := some pid, rooms := newRooms }
    let st2 := setSession st s2
    let entry : PresEntry :=
      { userId := s.userId, socketId := sid, name := s.userName }
    let inner := (alGet pid st2.onlineUsers).getD []
    let inner2 := alSet s.userId entry inner
    let gl :=
      match alGet s.userId st2.globalOnline with
      | some g =>
        alSet s.userId { g with currentProject := some pid } st2.globalOnline
      | none => st2.globalOnline
    { st2 with onlineUsers := alSet pid inner2 st2.onlineUsers, globalOnline := gl }

/-- The disconnect handler: delete the user from the map of the current
project of the socket, then delete the user from the global map and drop
the session. -/
def disconnect (st : SState) (sid : Nat) : SState :=
  match findSession st sid with
  | none => st
  | some s =>
    let ou :=
      match s.currentProject with
      | some p =>
        match alGet p st.onlineUsers with
        | some inner => alSet p (alDel s.userId inner) st.onlineUsers
        | none => st.onlineUsers
      | none => st.onlineUsers
    { sessions := st.sessions.filter (fun u => u.sid != sid),
      onlineUsers := ou,
      globalOnline := alDel s.userId st.globalOnline }

/-- Reading a key just written returns the written value. -/
theorem alGet_alSet_self {α : Type} (k : Nat) (v : α) (l : List (Nat × α)) :
    alGet k (alSet k v l) = some v := by
  induction l with
  | nil => simp [alGet, alSet]
  | cons kv rest ih =>
    by_cases h : kv.1 = k
    · simp [alGet, alSet, h]
    · simp [alGet, alSet, h, ih]

/-- Reading a key just deleted returns nothing. -/
theorem alGet_alDel_self {α : Type} (k : Nat) (l : List (Nat × α)) :
    alGet k (alDel k l) = none := by
  induction l with
  | nil => rfl
  | cons kv rest ih =>
    by_cases h : kv.1 = k
    · simpa [alDel, h] using ih
    · simpa [alDel, alGet, h] using ih

/-- Writing back a mutated session makes it the one found under its
socket id. -/
theorem find_setSession (l : List Session) (sid : Nat) (s s2 : Session)
    (hs : l.find? (fun u => u.sid == sid) = some s) (h2 : s2.sid = s.sid) :
    (l.map (fun u => if u.sid = s2.sid then s2 else u)).find?
      (fun u => u.sid == sid) = some s2 := by
  have hssid : s.sid = sid := by simpa using List.find?_some hs
  revert hs
  induction l with
  | nil => intro hs; simp at hs
  | cons u rest ih =>
    intro hs
    by_cases hu : u.sid = sid
    · rw [List.find?_cons_of_pos _ (by simp [hu])] at hs
      have hus : u = s := Option.some.inj hs
      subst hus
      simp only [List.map_cons]
      rw [if_pos (by rw [h2])]
      exact List.find?_cons_of_pos _ (by simp [h2, hssid])
    · rw [List.find?_cons_of_neg _ (by simp [hu])] at hs
      simp only [List.map_cons]
      rw [if_neg (fun hcc => hu (by rw [hcc, h2, hssid]))]
      rw [List.find?_cons_of_neg _ (by simp [hu])]
      exact ih hs

/-! ### C2: presence after a disconnect -/

/-- C2 as amended: when a session whose current room is P disconnects,
its user key is deleted from the presence map of P and from the global
map, so neither list contains that session any more; because both maps
are keyed by user id, this removes the user entirely, even while another
session of the same user remains joined to P. -/
theorem c2_amended_presence (st : SState) (sid p : Nat) (s : Session)
    (hs : findSession st sid = some s) (hp : s.currentProject = some p) :
    alGet s.userId ((alGet p (disconnect st sid).onlineUsers).getD []) = none ∧
    alGet s.userId (disconnect st sid).globalOnline = none := by
  simp only [disconnect, hs, hp]
  constructor
  · cases hi : alGet p st.onlineUsers with
    | none => simp [hi, alGet]
    | some inner => simp [hi, alGet_alSet_self, alGet_alDel_self]
  · exact alGet_alDel_self _ _

/-- The empty socket state. -/
def emptySState : SState := { sessions := [], onlineUsers := [], globalOnline := [] }

/-- Two sessions of user 10 join room 7, then the first disconnects. -/
def c2state : SState :=
  disconnect
    (projectJoin
      (projectJoin
        (connect (connect emptySState 1 10 "alice") 2 10 "alice") 1 7) 2 7) 1

/-- The second session of user 10, still joined to room 7. -/
def c2sess : Session :=
  { sid := 2, userId := 10, userName := "alice", currentProject := some 7,
    rooms := [7] }

/-- C2 counterexample: after the first session of user 10 disconnects,
the second session of the same user is still connected and joined to
room 7, yet user 10 is no longer in the presence list of room 7 nor in
the global list, refuting the claim that the user stays visible. -/
theorem c2_counterexample :
    findSession c2state 2 = some c2sess ∧
    alGet 10 ((alGet 7 c2state.onlineUsers).getD []) = none ∧
    alGet 10 c2state.globalOnline = none := by
  refine ⟨by decide, by decide, by decide⟩

/-- One session of user 10 joined to room 7. -/
def c2wst : SState := projectJoin (connect emptySState 1 10 "alice") 1 7

/-- The session record of that single session. -/
def c2wsess : Session :=
  { sid := 1, userId := 10, userName := "alice", currentProject := some 7,
    rooms := [7] }

/-- Witness for the amended C2: the single joined session of user 10
disconnects and user 10 leaves both presence lists. -/
theorem c2_amended_presence_witness :
    alGet 10 ((alGet 7 (disconnect c2wst 1).onlineUsers).getD []) = none ∧
    alGet 10 (disconnect c2wst 1).globalOnline = none :=
  c2_amended_presence c2wst 1 7 c2wsess (by decide) (by decide)

/-! ### C10: joining a room is unconditional -/

/-- C10: the project:join handler adds the session user to the presence
map of any project id for any connected session, and records the room on
the session, with no membership condition of any kind: the socket state
holds no membership data at all. -/
theorem c10_join_no_membership_check (st : SState) (sid pid : Nat)
    (s : Session) (hs : findSession st sid = some s) :
    alGet s.userId ((alGet pid (projectJoin st sid pid).onlineUsers).getD []) =
      some { userId := s.userId, socketId := sid, name := s.userName } ∧
    (∃ s2, findSession (projectJoin st sid pid) sid = some s2 ∧
      s2.rooms.contains pid = true ∧ s2.currentProject = some pid) := by
  constructor
  · simp only [projectJoin, hs]
    simp [alGet_alSet_self]
  · refine ⟨{ s with currentProject := some pid, rooms := if s.rooms.contains pid then s.rooms else pid :: s.rooms }, ?_, ?_, rfl⟩
    · unfold projectJoin
      rw [hs]
      dsimp only [findSession, setSession]
      exact find_setSession st.sessions sid s { s with currentProject := some pid, rooms := if s.rooms.contains pid then s.rooms else pid :: s.rooms } hs rfl
    · dsimp only
      by_cases h : s.rooms.contains pid = true
      · rw [if_pos h]
        exact h
      · rw [if_neg h]
        simp

/-- Witness for C10: a freshly connected session of user 10 joins the
arbitrary room 99 and appears in its presence map. -/
theorem c10_join_no_membership_check_witness :
    alGet 10
        ((alGet 99 (projectJoin (connect emptySState 1 10 "alice") 1 99).onlineUsers).getD []) =
      some { userId := 10, socketId := 1, name := "alice" } ∧
    (∃ s2, findSession (projectJoin (connect emptySState 1 10 "alice") 1 99) 1 = some s2 ∧
      s2.rooms.contains 99 = true ∧ s2.currentProject = some 99) :=
  c10_join_no_membership_check (connect emptySState 1 10 "alice") 1 99
    { sid := 1, userId := 10, userName := "alice", currentProject := none,
      rooms := [] } (by decide)

end Taskman
